import Mathlib

/-!
Verification of the persistence and result-delivery subsystem of the
scheduler (files `mcp_scheduler/mongo_persistence.py` and
`mcp_scheduler/message_delivery.py`), against its natural-language
specification.

The MongoDB layer is embedded shallowly: a stored document is an
association list from field names to BSON-like values, a collection is a
list of documents in insertion order, and the pymongo collection
operations used by the source (`find_one`, `find`, `replace_one` with
`upsert=True`, `delete_one`, `sort`, `limit`) are given executable
semantics.  Connectivity failures of the underlying client are modelled
by a `Conn` parameter: every method of `MongoDatabase` wraps its body in
`try/except`, and the embedding reproduces each method's `except` arm.

The `Task`/`TaskExecution` dataclasses live in `mcp_scheduler/task.py`,
which is not among the available sources; their field lists are taken
from the way `mongo_persistence.py` reads and writes them, and the
enumerations from the specification's data model section.
-/

namespace MCPScheduler

/-- BSON-like values as stored by this subsystem: the documents written by
`save_task`/`save_execution` only ever contain strings, booleans,
datetimes (modelled as integers) and nulls (Python `None`). -/
inductive BVal where
  | null
  | str (s : String)
  | bool (b : Bool)
  | time (t : Int)
deriving DecidableEq, Repr

/-- A stored MongoDB document: fields in insertion order.  Ill-typed
stored values that the Python layer would pass through untyped are not
representable; every claim below only exercises well-typed or missing
fields and malformed enumeration strings, all of which are representable. -/
abbrev Doc := List (String × BVal)

/-- First binding of a field name in a document (`doc["k"]` / `doc.get("k")`). -/
def getField (d : Doc) (k : String) : Option BVal :=
  match d with
  | [] => none
  | (k', v) :: rest => if k' = k then some v else getField rest k

/-- MongoDB equality-filter semantics for the single-field filters used by
the source (`{"id": x}`, `{"task_id": x}`, `{"user": x}`): a missing field
compares as null. -/
def fieldEq (d : Doc) (k : String) (v : BVal) : Bool :=
  decide ((getField d k).getD BVal.null = v)

/-- Rank of a BSON type in MongoDB's cross-type sort order, restricted to
the value shapes of this subsystem (Null < String < Boolean < Date). -/
def bvalRank : BVal → Nat
  | .null => 0
  | .str _ => 1
  | .bool _ => 2
  | .time _ => 3

/-- MongoDB's BSON comparison order on the stored value shapes: values of
different types compare by type rank, values of equal type by their payload. -/
def bvalLe (a b : BVal) : Bool :=
  match a, b with
  | .str s, .str t => decide (s ≤ t)
  | .bool x, .bool y => decide (x ≤ y)
  | .time s, .time t => decide (s ≤ t)
  | x, y => decide (bvalRank x ≤ bvalRank y)

theorem bvalLe_trans (a b c : BVal) (hab : bvalLe a b) (hbc : bvalLe b c) :
    bvalLe a c := by
  cases a <;> cases b <;> cases c <;>
    simp_all [bvalLe, bvalRank] <;>
    first
      | omega
      | exact le_trans (by assumption) (by assumption)

theorem bvalLe_total (a b : BVal) : bvalLe a b || bvalLe b a := by
  cases a <;> cases b <;> simp [bvalLe, bvalRank, le_total]

theorem bvalLe_time_iff (s t : Int) : bvalLe (.time s) (.time t) = true ↔ s ≤ t := by
  simp [bvalLe]

/-! ## Message delivery (`message_delivery.py`) -/

/-- JSON values occurring in the delivery payloads. -/
inductive JVal where
  | str (s : String)
  | bool (b : Bool)
  | null
deriving DecidableEq, Repr

/-- One HTTP POST request as issued by `MessageDelivery`: target URL and
JSON body. -/
structure PostRequest where
  endpoint : String
  payload : List (String × JVal)
deriving DecidableEq, Repr

/-- Outcome the network environment produces for an attempted POST:
a response with a status code and body text, a timeout
(`asyncio.TimeoutError`), or any other transport exception. -/
inductive HttpOutcome where
  | status (code : Nat) (body : String)
  | timeout
  | transportFailure (msg : String)
deriving DecidableEq, Repr

/-- The `MessageDelivery` service: holds only the configured base URL. -/
structure MessageDelivery where
  librechat_base_url : String
deriving DecidableEq, Repr

/-- Python `str.rstrip('/')`. -/
def rstripSlash (s : String) : String :=
  (s.dropRightWhile (· = '/'))

/-- Result endpoint derived from the base URL (`__init__`). -/
def MessageDelivery.task_result_endpoint (m : MessageDelivery) : String :=
  rstripSlash m.librechat_base_url ++ "/api/scheduler/internal/task-result"

/-- Notification endpoint derived from the base URL (`__init__`). -/
def MessageDelivery.notification_endpoint (m : MessageDelivery) : String :=
  rstripSlash m.librechat_base_url ++ "/api/scheduler/internal/notification"

/-- Embedding of `MessageDelivery.send_task_result`.  The returned pair is
the boolean result together with the list of POST requests performed, so
that absence of network I/O is visible in the model.  The `net` argument
is the outcome the environment gives the request if one is made; all
non-200 outcomes, timeouts and transport errors are caught and converted
to `false`, mirroring the source's `try/except`. -/
def send_task_result (m : MessageDelivery) (net : HttpOutcome)
    (user_id conversation_id task_name task_id result : String)
    (task_type : String := "unknown") (success : Bool := true) :
    Bool × List PostRequest :=
  if user_id = "" ∨ conversation_id = "" then
    (false, [])
  else
    let payload : List (String × JVal) :=
      [("userId", .str user_id),
       ("conversationId", .str conversation_id),
       ("taskName", .str task_name),
       ("taskId", .str task_id),
       ("result", .str result),
       ("taskType", .str task_type),
       ("success", .bool success)]
    let req : PostRequest := ⟨m.task_result_endpoint, payload⟩
    match net with
    | .status code _ => if code = 200 then (true, [req]) else (false, [req])
    | .timeout => (false, [req])
    | .transportFailure _ => (false, [req])

/-- Embedding of `MessageDelivery.send_task_notification`, with the same
conventions as `send_task_result`. -/
def send_task_notification (m : MessageDelivery) (net : HttpOutcome)
    (user_id conversation_id task_name task_id : String)
    (notification_type : String := "started") (details : Option String := none) :
    Bool × List PostRequest :=
  if user_id = "" ∨ conversation_id = "" then
    (false, [])
  else
    let payload : List (String × JVal) :=
      [("userId", .str user_id),
       ("conversationId", .str conversation_id),
       ("taskName", .str task_name),
       ("taskId", .str task_id),
       ("notificationType", .str notification_type),
       ("details", match details with | none => .null | some s => .str s)]
    let req : PostRequest := ⟨m.notification_endpoint, payload⟩
    match net with
    | .status code _ => if code = 200 then (true, [req]) else (false, [req])
    | .timeout => (false, [req])
    | .transportFailure _ => (false, [req])

/-! ## Entity model (`task.py`, modelled from the spec) -/

/-- Modelled from the spec: the `TaskType` enumeration of `task.py` (not
among the sources); the spec's data model lists the enumerated set
{command, api, ai-prompt, reminder}, and `save_task` stores `task.type.value`. -/
inductive TaskType where
  | command
  | api
  | ai
  | reminder
deriving DecidableEq, Repr

/-- The string value of a `TaskType` member (`task.type.value`). -/
def TaskType.value : TaskType → String
  | .command => "command"
  | .api => "api"
  | .ai => "ai-prompt"
  | .reminder => "reminder"

/-- The `TaskType(s)` enum constructor: `none` models the `ValueError`
raised on an unknown value string. -/
def TaskType.ofValue (s : String) : Option TaskType :=
  if s = "command" then some .command
  else if s = "api" then some .api
  else if s = "ai-prompt" then some .ai
  else if s = "reminder" then some .reminder
  else none

/-- Modelled from the spec: the `TaskStatus` enumeration of `task.py`; the
spec lists the enumerated set {pending, running, completed, failed, cancelled}. -/
inductive TaskStatus where
  | pending
  | running
  | completed
  | failed
  | cancelled
deriving DecidableEq, Repr

/-- The string value of a `TaskStatus` member (`task.status.value`). -/
def TaskStatus.value : TaskStatus → String
  | .pending => "pending"
  | .running => "running"
  | .completed => "completed"
  | .failed => "failed"
  | .cancelled => "cancelled"

/-- The `TaskStatus(s)` enum constructor: `none` models the `ValueError`
raised on an unknown value string. -/
def TaskStatus.ofValue (s : String) : Option TaskStatus :=
  if s = "pending" then some .pending
  else if s = "running" then some .running
  else if s = "completed" then some .completed
  else if s = "failed" then some .failed
  else if s = "cancelled" then some .cancelled
  else none

theorem taskType_ofValue_value (t : TaskType) : TaskType.ofValue t.value = some t := by
  cases t <;> rfl

theorem taskStatus_ofValue_value (s : TaskStatus) : TaskStatus.ofValue s.value = some s := by
  cases s <;> rfl

/-- Modelled from the spec: the `Task` dataclass of `task.py`.  Its fields
are exactly those read and written by `save_task`/`_doc_to_task`;
timestamps are integers, the API header/body payloads are opaque optional
strings. -/
structure Task where
  id : String
  name : String
  schedule : String
  type : TaskType
  command : Option String
  api_url : Option String
  api_method : Option String
  api_headers : Option String
  api_body : Option String
  prompt : Option String
  description : Option String
  enabled : Bool
  do_only_once : Bool
  last_run : Option Int
  next_run : Option Int
  status : TaskStatus
  created_at : Int
  updated_at : Int
  reminder_title : Option String
  reminder_message : Option String
  user : Option String
  conversation_id : Option String
deriving DecidableEq, Repr

/-- Modelled from the spec: the `TaskExecution` dataclass of `task.py`,
with exactly the fields read and written by
`save_execution`/`_doc_to_execution`. -/
structure TaskExecution where
  id : String
  task_id : String
  start_time : Int
  end_time : Option Int
  status : TaskStatus
  output : Option String
  error : Option String
  user : Option String
deriving DecidableEq, Repr

/-! ## MongoDB collection primitives -/

/-- Connectivity state of the MongoDB client: each `MongoDatabase` method
body either runs normally or raises a connection exception carrying a
cause, which the method's `except` arm handles. -/
inductive Conn where
  | ok
  | failed (cause : String)
deriving DecidableEq, Repr

/-- The two collections of the database (`schedulertasks`,
`schedulerexecutions`), each a list of documents in insertion order. -/
structure DBState where
  tasks : List Doc
  executions : List Doc
deriving DecidableEq, Repr

/-- The empty database. -/
def dbEmpty : DBState := { tasks := [], executions := [] }

/-- `collection.find_one({k: v})`: first document matching the filter. -/
def findOne (c : List Doc) (k : String) (v : BVal) : Option Doc :=
  c.find? (fun d => fieldEq d k v)

/-- `collection.find({k: v})`: all documents matching the filter, in
insertion order. -/
def findMany (c : List Doc) (k : String) (v : BVal) : List Doc :=
  c.filter (fun d => fieldEq d k v)

/-- `collection.replace_one({k: v}, newDoc, upsert=True)`: replaces the
first matching document in place, or inserts the new document if none
matches. -/
def replaceOne (c : List Doc) (k : String) (v : BVal) (newDoc : Doc) : List Doc :=
  match c with
  | [] => [newDoc]
  | d :: rest =>
    if fieldEq d k v then newDoc :: rest
    else d :: replaceOne rest k v newDoc

/-- `collection.delete_one({k: v})`: removes the first matching document;
returns the resulting collection and the `deleted_count`. -/
def deleteOne (c : List Doc) (k : String) (v : BVal) : List Doc × Nat :=
  match c with
  | [] => ([], 0)
  | d :: rest =>
    if fieldEq d k v then (rest, 1)
    else
      let (rest', n) := deleteOne rest k v
      (d :: rest', n)

/-- The sort key of a document under `sort("start_time", -1)`: its
`start_time` field, with a missing field sorting as null. -/
def sTimeKey (d : Doc) : BVal :=
  (getField d "start_time").getD BVal.null

/-- `cursor.sort("start_time", -1)`: documents ordered by their
`start_time` field descending; a missing field sorts as null.  The
underlying engine's tie behaviour is modelled as a stable sort, so ties
keep insertion order. -/
def sortByStartDesc (docs : List Doc) : List Doc :=
  docs.mergeSort (fun d1 d2 => bvalLe (sTimeKey d2) (sTimeKey d1))

/-- `cursor.limit(n)` with pymongo semantics: a limit of 0 is equivalent
to no limit; a positive limit truncates to at most `n` documents. -/
def mongoLimit (n : Nat) (l : List Doc) : List Doc :=
  if n = 0 then l else l.take n

/-- A Python list comprehension `[f(d) for d in docs]` inside a
`try:` block: the first conversion that raises aborts the whole
comprehension (`none`). -/
def decodeList (f : Doc → Option α) : List Doc → Option (List α)
  | [] => some []
  | d :: rest =>
    match f d with
    | none => none
    | some a =>
      match decodeList f rest with
      | none => none
      | some l => some (a :: l)


/-! ## Encoding and decoding between entities and documents -/

/-- An optional string as stored in a document (Python `None` becomes BSON null). -/
def optStr : Option String → BVal
  | none => .null
  | some s => .str s

/-- An optional datetime as stored in a document. -/
def optTime : Option Int → BVal
  | none => .null
  | some t => .time t

/-- Reading a required string field. -/
def asStr : BVal → Option String
  | .str s => some s
  | _ => none

/-- Reading a required datetime field. -/
def asTime : BVal → Option Int
  | .time t => some t
  | _ => none

/-- Reading `doc.get(k)` as an optional string: a missing or null field is
Python `None`. -/
def decodeOptStr : Option BVal → Option (Option String)
  | none => some none
  | some .null => some none
  | some (.str s) => some (some s)
  | some _ => none

/-- Reading `doc.get(k)` as an optional datetime. -/
def decodeOptTime : Option BVal → Option (Option Int)
  | none => some none
  | some .null => some none
  | some (.time t) => some (some t)
  | some _ => none

/-- Reading `doc.get(k, dflt)` as a boolean: the default applies only when
the field is missing, not when it is null. -/
def decodeBoolD (v : Option BVal) (dflt : Bool) : Option Bool :=
  match v with
  | none => some dflt
  | some (.bool b) => some b
  | some _ => none

/-- The task document built by `save_task` (lines 129-152 of
`mongo_persistence.py`), fields in source order. -/
def taskToDoc (t : Task) : Doc :=
  [("id", .str t.id),
   ("name", .str t.name),
   ("schedule", .str t.schedule),
   ("type", .str t.type.value),
   ("command", optStr t.command),
   ("api_url", optStr t.api_url),
   ("api_method", optStr t.api_method),
   ("api_headers", optStr t.api_headers),
   ("api_body", optStr t.api_body),
   ("prompt", optStr t.prompt),
   ("description", optStr t.description),
   ("enabled", .bool t.enabled),
   ("do_only_once", .bool t.do_only_once),
   ("last_run", optTime t.last_run),
   ("next_run", optTime t.next_run),
   ("status", .str t.status.value),
   ("created_at", .time t.created_at),
   ("updated_at", .time t.updated_at),
   ("reminder_title", optStr t.reminder_title),
   ("reminder_message", optStr t.reminder_message),
   ("user", optStr t.user),
   ("conversation_id", optStr t.conversation_id)]

/-- The execution document built by `save_execution` (lines 209-218). -/
def execToDoc (e : TaskExecution) : Doc :=
  [("id", .str e.id),
   ("task_id", .str e.task_id),
   ("start_time", .time e.start_time),
   ("end_time", optTime e.end_time),
   ("status", .str e.status.value),
   ("output", optStr e.output),
   ("error", optStr e.error),
   ("user", optStr e.user)]

/-- Embedding of `MongoDatabase._doc_to_task`: `none` models the exception
raised on a missing required field (`KeyError`) or an unknown `type` or
`status` value (`ValueError`); `enabled` and `do_only_once` default to
true and `status` to pending when the field is missing. -/
def _doc_to_task (doc : Doc) : Option Task :=
  match (getField doc "id").bind asStr, (getField doc "name").bind asStr,
      (getField doc "schedule").bind asStr,
      ((getField doc "type").bind asStr).bind TaskType.ofValue with
  | some i, some n, some sch, some ty =>
    match decodeOptStr (getField doc "command"), decodeOptStr (getField doc "api_url"),
        decodeOptStr (getField doc "api_method"), decodeOptStr (getField doc "api_headers"),
        decodeOptStr (getField doc "api_body"), decodeOptStr (getField doc "prompt"),
        decodeOptStr (getField doc "description") with
    | some cmd, some au, some am, some ah, some ab, some pr, some de =>
      match decodeBoolD (getField doc "enabled") true,
          decodeBoolD (getField doc "do_only_once") true,
          decodeOptTime (getField doc "last_run"), decodeOptTime (getField doc "next_run"),
          (match getField doc "status" with
           | none => some TaskStatus.pending.value
           | some v => asStr v).bind TaskStatus.ofValue,
          (getField doc "created_at").bind asTime, (getField doc "updated_at").bind asTime with
      | some en, some doo, some lr, some nr, some st, some ca, some ua =>
        match decodeOptStr (getField doc "reminder_title"),
            decodeOptStr (getField doc "reminder_message"),
            decodeOptStr (getField doc "user"),
            decodeOptStr (getField doc "conversation_id") with
        | some rt, some rm, some us, some cid =>
          some
            { id := i, name := n, schedule := sch, type := ty, command := cmd,
              api_url := au, api_method := am, api_headers := ah, api_body := ab,
              prompt := pr, description := de, enabled := en, do_only_once := doo,
              last_run := lr, next_run := nr, status := st, created_at := ca,
              updated_at := ua, reminder_title := rt, reminder_message := rm,
              user := us, conversation_id := cid }
        | _, _, _, _ => none
      | _, _, _, _, _, _, _ => none
    | _, _, _, _, _, _, _ => none
  | _, _, _, _ => none

/-- Embedding of `MongoDatabase._doc_to_execution`. -/
def _doc_to_execution (doc : Doc) : Option TaskExecution :=
  match (getField doc "id").bind asStr, (getField doc "task_id").bind asStr,
      (getField doc "start_time").bind asTime, decodeOptTime (getField doc "end_time"),
      ((getField doc "status").bind asStr).bind TaskStatus.ofValue,
      decodeOptStr (getField doc "output"), decodeOptStr (getField doc "error"),
      decodeOptStr (getField doc "user") with
  | some i, some tid, some st, some et, some sta, some out, some er, some us =>
    some
      { id := i, task_id := tid, start_time := st, end_time := et,
        status := sta, output := out, error := er, user := us }
  | _, _, _, _, _, _, _, _ => none

/-! ## `MongoDatabase` methods -/

/-- Embedding of `MongoDatabase.save_task`: builds the task document and
upserts it with `replace_one({"id": task.id}, doc, upsert=True)`.  On a
connectivity failure the method logs and re-raises, modelled by
`Except.error` carrying the cause. -/
def save_task (conn : Conn) (st : DBState) (t : Task) : Except String DBState :=
  match conn with
  | .failed cause => .error cause
  | .ok => .ok { st with tasks := replaceOne st.tasks "id" (.str t.id) (taskToDoc t) }

/-- Embedding of `MongoDatabase.save_execution`, same shape as `save_task`
on the executions collection. -/
def save_execution (conn : Conn) (st : DBState) (e : TaskExecution) :
    Except String DBState :=
  match conn with
  | .failed cause => .error cause
  | .ok => .ok { st with executions := replaceOne st.executions "id" (.str e.id) (execToDoc e) }

/-- Embedding of `MongoDatabase.get_task`: `find_one({"id": task_id})`,
returning `none` when no document matches, when decoding raises, or when
the connection fails (the `except` arm returns `None`). -/
def get_task (conn : Conn) (st : DBState) (task_id : String) : Option Task :=
  match conn with
  | .failed _ => none
  | .ok =>
    match findOne st.tasks "id" (.str task_id) with
    | none => none
    | some doc => _doc_to_task doc

/-- Embedding of `MongoDatabase.get_all_tasks`: the list comprehension
decodes every document; any decoding exception (and any connectivity
failure) is caught by the `except` arm, which returns `[]`. -/
def get_all_tasks (conn : Conn) (st : DBState) : List Task :=
  match conn with
  | .failed _ => []
  | .ok =>
    match decodeList _doc_to_task st.tasks with
    | none => []
    | some l => l

/-- Embedding of `MongoDatabase.get_tasks_by_user`:
`find({"user": user_id})` followed by the same decoding comprehension. -/
def get_tasks_by_user (conn : Conn) (st : DBState) (user_id : String) : List Task :=
  match conn with
  | .failed _ => []
  | .ok =>
    match decodeList _doc_to_task (findMany st.tasks "user" (.str user_id)) with
    | none => []
    | some l => l

/-- Embedding of `MongoDatabase.delete_task`:
`delete_one({"id": task_id})`, returning `deleted_count > 0`; the
`except` arm returns `False` (state unchanged). -/
def delete_task (conn : Conn) (st : DBState) (task_id : String) : Bool × DBState :=
  match conn with
  | .failed _ => (false, st)
  | .ok =>
    let (tasks', n) := deleteOne st.tasks "id" (.str task_id)
    (decide (n > 0), { st with tasks := tasks' })

/-- Embedding of `MongoDatabase.get_executions`:
`find({"task_id": task_id}).sort("start_time", -1).limit(limit)` with
default limit 10, decoded by the comprehension; the `except` arm returns `[]`. -/
def get_executions (conn : Conn) (st : DBState) (task_id : String)
    (limit : Nat := 10) : List TaskExecution :=
  match conn with
  | .failed _ => []
  | .ok =>
    let docs := mongoLimit limit (sortByStartDesc (findMany st.executions "task_id" (.str task_id)))
    match decodeList _doc_to_execution docs with
    | none => []
    | some l => l

/-- Embedding of `MongoDatabase.get_executions_by_user`:
`find({"user": user_id}).sort("start_time", -1).limit(limit)` with default
limit 50. -/
def get_executions_by_user (conn : Conn) (st : DBState) (user_id : String)
    (limit : Nat := 50) : List TaskExecution :=
  match conn with
  | .failed _ => []
  | .ok =>
    let docs := mongoLimit limit (sortByStartDesc (findMany st.executions "user" (.str user_id)))
    match decodeList _doc_to_execution docs with
    | none => []
    | some l => l


/-! ## Round-trip lemmas -/

theorem decodeOptStr_optStr (x : Option String) :
    decodeOptStr (some (optStr x)) = some x := by
  cases x <;> rfl

theorem decodeOptTime_optTime (x : Option Int) :
    decodeOptTime (some (optTime x)) = some x := by
  cases x <;> rfl

/-- Decoding a document produced by `save_task` recovers the task exactly. -/
theorem doc_to_task_taskToDoc (t : Task) : _doc_to_task (taskToDoc t) = some t := by
  simp [_doc_to_task, taskToDoc, getField, asStr, asTime, decodeOptStr_optStr,
    decodeOptTime_optTime, decodeBoolD, taskType_ofValue_value, taskStatus_ofValue_value]

/-- Decoding a document produced by `save_execution` recovers the execution exactly. -/
theorem doc_to_execution_execToDoc (e : TaskExecution) :
    _doc_to_execution (execToDoc e) = some e := by
  simp [_doc_to_execution, execToDoc, getField, asStr, asTime, decodeOptStr_optStr,
    decodeOptTime_optTime, taskStatus_ofValue_value]

theorem fieldEq_taskToDoc_id (t : Task) : fieldEq (taskToDoc t) "id" (.str t.id) = true := by
  simp [fieldEq, taskToDoc, getField]

theorem fieldEq_execToDoc_id (e : TaskExecution) :
    fieldEq (execToDoc e) "id" (.str e.id) = true := by
  simp [fieldEq, execToDoc, getField]

/-- After an upsert, the first document matching the filter is the upserted one. -/
theorem findOne_replaceOne (c : List Doc) (k : String) (v : BVal) (d : Doc)
    (hd : fieldEq d k v = true) : findOne (replaceOne c k v d) k v = some d := by
  induction c with
  | nil => simp [replaceOne, findOne, List.find?, hd]
  | cons x rest ih =>
    by_cases hx : fieldEq x k v
    · simp [replaceOne, hx, findOne, List.find?, hd]
    · simpa [replaceOne, hx, findOne, List.find?] using ih


/-! ## Claims -/

/-- Claim C1: for every Task `T`, after `save_task(T)` succeeds, `get_task(T.id)`
returns a Task equal to `T` in every field. -/
theorem claim_C1 (conn : Conn) (st st' : DBState) (t : Task)
    (h : save_task conn st t = .ok st') : get_task conn st' t.id = some t := by
  cases conn with
  | failed cause => simp [save_task] at h
  | ok =>
    simp only [save_task, Except.ok.injEq] at h
    subst h
    simp [get_task, findOne_replaceOne st.tasks "id" (.str t.id) (taskToDoc t)
      (fieldEq_taskToDoc_id t), doc_to_task_taskToDoc]

/-- A concrete task used by the witnesses. -/
def taskW : Task :=
  { id := "t1", name := "daily report", schedule := "0 9 * * *", type := .reminder,
    command := none, api_url := none, api_method := none, api_headers := none,
    api_body := none, prompt := none, description := some "send the report",
    enabled := true, do_only_once := false, last_run := none, next_run := some 7,
    status := .pending, created_at := 1, updated_at := 2,
    reminder_title := some "report", reminder_message := none,
    user := some "u1", conversation_id := some "c1" }

/-- The database state after saving `taskW` into the empty database. -/
def dbW : DBState := { tasks := [taskToDoc taskW], executions := [] }

theorem claim_C1_witness :
    save_task Conn.ok dbEmpty taskW = .ok dbW ∧
    get_task Conn.ok dbW taskW.id = some taskW :=
  ⟨rfl, claim_C1 Conn.ok dbEmpty dbW taskW rfl⟩


/-- Claim C2: for every call to `send_task_result` with non-empty `user_id`
and `conversation_id`, the result is `true` if and only if the POST to the
task-result endpoint receives a status-200 response; any other status,
timeout or transport error yields `false`, and the call never raises (the
embedding is a total function into `Bool`).  The single request performed
targets `task_result_endpoint`. -/
theorem claim_C2 (m : MessageDelivery) (net : HttpOutcome)
    (u c tn ti r tt : String) (s : Bool) (hu : u ≠ "") (hc : c ≠ "") :
    ((send_task_result m net u c tn ti r tt s).1 = true ↔
      ∃ body, net = .status 200 body) ∧
    ∃ p, (send_task_result m net u c tn ti r tt s).2 = [⟨m.task_result_endpoint, p⟩] := by
  cases net with
  | status code body =>
    by_cases h200 : code = 200 <;>
      simp [send_task_result, hu, hc, h200]
  | timeout => simp [send_task_result, hu, hc]
  | transportFailure msg => simp [send_task_result, hu, hc]

theorem claim_C2_witness :
    ("u1" : String) ≠ "" ∧ ("c1" : String) ≠ "" ∧
    ((send_task_result ⟨"http://localhost:3080"⟩ (.status 200 "ok")
        "u1" "c1" "task" "t1" "done" "reminder" true).1 = true ↔
      ∃ body, (HttpOutcome.status 200 "ok") = .status 200 body) :=
  ⟨by decide, by decide,
    (claim_C2 ⟨"http://localhost:3080"⟩ (.status 200 "ok")
      "u1" "c1" "task" "t1" "done" "reminder" true
      (by decide) (by decide)).1⟩

/-- Claim C3: a call to `send_task_result` or `send_task_notification` with
an empty `user_id` or `conversation_id` returns `false` and performs no
network I/O (the list of requests made is empty). -/
theorem claim_C3 (m : MessageDelivery) (net : HttpOutcome)
    (u c tn ti r tt nt : String) (s : Bool) (dt : Option String)
    (h : u = "" ∨ c = "") :
    send_task_result m net u c tn ti r tt s = (false, []) ∧
    send_task_notification m net u c tn ti nt dt = (false, []) := by
  constructor <;> simp [send_task_result, send_task_notification, h]

theorem claim_C3_witness :
    (("" : String) = "" ∨ ("c1" : String) = "") ∧
    send_task_result ⟨"http://localhost:3080"⟩ (.status 200 "ok")
      "" "c1" "task" "t1" "done" "reminder" true = (false, []) :=
  ⟨Or.inl rfl,
    (claim_C3 ⟨"http://localhost:3080"⟩ (.status 200 "ok")
      "" "c1" "task" "t1" "done" "reminder" "started" true none (Or.inl rfl)).1⟩


/-- Claim C6: a save of a Task or TaskExecution whose id already exists
replaces the prior stored record wholesale: whatever the prior state, the
document stored under the id after the save is exactly the encoding of the
new record, so no field value of the prior record survives. -/
theorem claim_C6 (conn : Conn) (st st₁ st₂ : DBState) (t : Task) (e : TaskExecution) :
    (save_task conn st t = .ok st₁ →
      findOne st₁.tasks "id" (.str t.id) = some (taskToDoc t)) ∧
    (save_execution conn st e = .ok st₂ →
      findOne st₂.executions "id" (.str e.id) = some (execToDoc e)) := by
  constructor
  · intro h
    cases conn with
    | failed cause => simp [save_task] at h
    | ok =>
      simp only [save_task, Except.ok.injEq] at h
      subst h
      exact findOne_replaceOne st.tasks "id" (.str t.id) (taskToDoc t)
        (fieldEq_taskToDoc_id t)
  · intro h
    cases conn with
    | failed cause => simp [save_execution] at h
    | ok =>
      simp only [save_execution, Except.ok.injEq] at h
      subst h
      exact findOne_replaceOne st.executions "id" (.str e.id) (execToDoc e)
        (fieldEq_execToDoc_id e)

/-- A second version of `taskW` under the same id, with several fields unset
that the first version had set. -/
def taskW2 : Task :=
  { id := "t1", name := "daily report v2", schedule := "0 9 * * *", type := .reminder,
    command := none, api_url := none, api_method := none, api_headers := none,
    api_body := none, prompt := none, description := none,
    enabled := true, do_only_once := false, last_run := none, next_run := none,
    status := .pending, created_at := 1, updated_at := 2,
    reminder_title := none, reminder_message := none,
    user := some "u1", conversation_id := none }

/-- A concrete execution used by the witnesses. -/
def execW : TaskExecution :=
  { id := "e1", task_id := "t1", start_time := 5, end_time := none,
    status := .running, output := some "partial", error := none, user := some "u1" }

/-- `execW` after completion: same id, `output` and `error` now unset. -/
def execW2 : TaskExecution :=
  { id := "e1", task_id := "t1", start_time := 5, end_time := some 9,
    status := .completed, output := none, error := none, user := some "u1" }

/-- The state holding the first versions of `taskW` and `execW`. -/
def dbW2 : DBState := { tasks := [taskToDoc taskW], executions := [execToDoc execW] }

theorem claim_C6_witness :
    findOne (replaceOne dbW2.tasks "id" (.str "t1") (taskToDoc taskW2)) "id"
        (.str taskW2.id) = some (taskToDoc taskW2) ∧
    findOne (replaceOne dbW2.executions "id" (.str "e1") (execToDoc execW2)) "id"
        (.str execW2.id) = some (execToDoc execW2) :=
  ⟨(claim_C6 Conn.ok dbW2
      { tasks := replaceOne dbW2.tasks "id" (.str "t1") (taskToDoc taskW2),
        executions := dbW2.executions }
      { tasks := dbW2.tasks,
        executions := replaceOne dbW2.executions "id" (.str "e1") (execToDoc execW2) }
      taskW2 execW2).1 rfl,
   (claim_C6 Conn.ok dbW2
      { tasks := replaceOne dbW2.tasks "id" (.str "t1") (taskToDoc taskW2),
        executions := dbW2.executions }
      { tasks := dbW2.tasks,
        executions := replaceOne dbW2.executions "id" (.str "e1") (execToDoc execW2) }
      taskW2 execW2).2 rfl⟩


/-- The `updated_at` value stored for a given task id. -/
def storedUpdatedAt (st : DBState) (task_id : String) : Option BVal :=
  (findOne st.tasks "id" (.str task_id)).bind (fun d => getField d "updated_at")

/-- Claim C7 counterexample: `save_task` persists the caller-supplied
`updated_at` verbatim.  Saving `taskW2` (whose `updated_at` is 2) over the
already-stored `taskW` (stored `updated_at` also 2) completes, and the
stored `updated_at` after the write equals the value stored before the
write — it has not advanced. -/
theorem claim_C7_counterexample :
    save_task Conn.ok dbEmpty taskW = .ok dbW ∧
    storedUpdatedAt dbW "t1" = some (.time 2) ∧
    save_task Conn.ok dbW taskW2 = .ok { tasks := [taskToDoc taskW2], executions := [] } ∧
    storedUpdatedAt { tasks := [taskToDoc taskW2], executions := [] } "t1" = some (.time 2) ∧
    storedUpdatedAt { tasks := [taskToDoc taskW2], executions := [] } "t1" =
      storedUpdatedAt dbW "t1" :=
  ⟨rfl, by decide, rfl, by decide, by decide⟩

/-- Claim C7 (amended): on every successful write through `save_task`, the
stored `updated_at` equals the `updated_at` field of the task being
written; it advances only when the caller supplies a later value, which
`save_task` itself never enforces. -/
theorem claim_C7 (conn : Conn) (st st' : DBState) (t : Task)
    (h : save_task conn st t = .ok st') :
    storedUpdatedAt st' t.id = some (.time t.updated_at) := by
  cases conn with
  | failed cause => simp [save_task] at h
  | ok =>
    simp only [save_task, Except.ok.injEq] at h
    subst h
    rw [storedUpdatedAt,
      findOne_replaceOne st.tasks "id" (.str t.id) (taskToDoc t) (fieldEq_taskToDoc_id t)]
    simp [taskToDoc, getField]

theorem claim_C7_witness :
    save_task Conn.ok dbEmpty taskW = .ok dbW ∧
    storedUpdatedAt dbW taskW.id = some (.time taskW.updated_at) :=
  ⟨rfl, claim_C7 Conn.ok dbEmpty dbW taskW rfl⟩

/-- Claim C4 counterexample: a `get_task` call that fails due to a
connectivity problem does not surface any error to the caller — it
returns `none`, the same sentinel a healthy connection returns for an
absent id, so the failure is not distinguishable by the immediate caller. -/
theorem claim_C4_counterexample :
    get_task (Conn.failed "server selection timeout") dbW "t1" = none ∧
    get_task Conn.ok dbEmpty "t1" = none :=
  ⟨rfl, rfl⟩

/-- Claim C4 (amended): only the save operations surface a connectivity
failure to the immediate caller, re-raising it with its cause; every read
and delete operation swallows the failure and returns its absence
sentinel (`none`, `[]`, or `false` with the state unchanged). -/
theorem claim_C4 (cause : String) (st : DBState) (t : Task) (e : TaskExecution)
    (tid uid : String) (n₁ n₂ : Nat) :
    save_task (Conn.failed cause) st t = .error cause ∧
    save_execution (Conn.failed cause) st e = .error cause ∧
    get_task (Conn.failed cause) st tid = none ∧
    get_all_tasks (Conn.failed cause) st = [] ∧
    get_tasks_by_user (Conn.failed cause) st uid = [] ∧
    delete_task (Conn.failed cause) st tid = (false, st) ∧
    get_executions (Conn.failed cause) st tid n₁ = [] ∧
    get_executions_by_user (Conn.failed cause) st uid n₂ = [] :=
  ⟨rfl, rfl, rfl, rfl, rfl, rfl, rfl, rfl⟩


/-- If any document in the list fails to decode, the whole comprehension
raises and yields `none`. -/
theorem decodeList_none_of_mem (f : Doc → Option α) (l : List Doc) (d : Doc)
    (hd : d ∈ l) (hbad : f d = none) : decodeList f l = none := by
  induction l with
  | nil => cases hd
  | cons x rest ih =>
    rcases List.mem_cons.mp hd with h | h
    · subst h
      simp [decodeList, hbad]
    · cases hfx : f x <;> simp [decodeList, hfx, ih h]

/-- A stored task document whose `type` field holds an unknown enumeration
string; decoding it raises `ValueError`. -/
def badTypeDoc : Doc :=
  [("id", .str "t2"), ("name", .str "broken"), ("schedule", .str "* * * * *"),
   ("type", .str "bogus"), ("created_at", .time 0), ("updated_at", .time 0),
   ("user", .str "u1")]

/-- A state holding one well-formed task document and one malformed one. -/
def db9 : DBState := { tasks := [taskToDoc taskW, badTypeDoc], executions := [] }

/-- Claim C9 counterexample: with one malformed and one well-formed task
document stored, `get_all_tasks` returns the empty list — the batch scan is
aborted by the malformed record and the remaining well-formed record is
not returned. -/
theorem claim_C9_counterexample :
    badTypeDoc ∈ db9.tasks ∧
    _doc_to_task badTypeDoc = none ∧
    taskToDoc taskW ∈ db9.tasks ∧
    _doc_to_task (taskToDoc taskW) = some taskW ∧
    get_all_tasks Conn.ok db9 = [] := by
  refine ⟨by decide, by decide, by decide, by decide, by decide⟩

/-- Claim C9 (amended): a stored record with a malformed enumerated field
value fails its own point read (`get_task` returns `none`), but a batch
scan is not tolerant of it: `get_all_tasks`, and `get_tasks_by_user` when
the malformed record matches the user filter, return the empty list,
discarding the well-formed records as well. -/
theorem claim_C9 (st : DBState) (d : Doc) (uid : String)
    (hd : d ∈ st.tasks) (hbad : _doc_to_task d = none) :
    get_all_tasks Conn.ok st = [] ∧
    (fieldEq d "user" (.str uid) = true → get_tasks_by_user Conn.ok st uid = []) ∧
    (∀ i, findOne st.tasks "id" (.str i) = some d → get_task Conn.ok st i = none) := by
  refine ⟨?_, ?_, ?_⟩
  · simp [get_all_tasks, decodeList_none_of_mem _doc_to_task st.tasks d hd hbad]
  · intro hfe
    have hmem : d ∈ findMany st.tasks "user" (.str uid) :=
      List.mem_filter.mpr ⟨hd, hfe⟩
    simp [get_tasks_by_user,
      decodeList_none_of_mem _doc_to_task (findMany st.tasks "user" (.str uid)) d hmem hbad]
  · intro i hfind
    simp [get_task, hfind, hbad]

theorem claim_C9_witness :
    badTypeDoc ∈ db9.tasks ∧ _doc_to_task badTypeDoc = none ∧
    get_all_tasks Conn.ok db9 = [] :=
  ⟨by decide, by decide,
    (claim_C9 db9 badTypeDoc "u1" (by decide) (by decide)).1⟩


/-- A stored task document lacking the `enabled`, `do_only_once` and
`status` fields (with all required fields present). -/
def minTaskDoc (i n sch : String) (ty : TaskType) (ca ua : Int) (uu : String) : Doc :=
  [("id", .str i), ("name", .str n), ("schedule", .str sch),
   ("type", .str ty.value), ("created_at", .time ca), ("updated_at", .time ua),
   ("user", .str uu)]

/-- The task that reading `minTaskDoc` is expected to produce: `enabled`
and `do_only_once` default to true and `status` to pending, every other
optional field to `None`. -/
def minTask (i n sch : String) (ty : TaskType) (ca ua : Int) (uu : String) : Task :=
  { id := i, name := n, schedule := sch, type := ty, command := none,
    api_url := none, api_method := none, api_headers := none, api_body := none,
    prompt := none, description := none, enabled := true, do_only_once := true,
    last_run := none, next_run := none, status := .pending,
    created_at := ca, updated_at := ua, reminder_title := none,
    reminder_message := none, user := some uu, conversation_id := none }

/-- A stored execution document lacking the `end_time`, `output`, `error`
and `user` fields. -/
def minExecDoc (j tid : String) (stt : Int) (sta : TaskStatus) : Doc :=
  [("id", .str j), ("task_id", .str tid), ("start_time", .time stt),
   ("status", .str sta.value)]

/-- The execution that reading `minExecDoc` is expected to produce: the
four absent fields default to `None`. -/
def minExec (j tid : String) (stt : Int) (sta : TaskStatus) : TaskExecution :=
  { id := j, task_id := tid, start_time := stt, end_time := none,
    status := sta, output := none, error := none, user := none }

/-- Claim C10: a stored task document lacking `enabled`, `do_only_once` or
`status` is read successfully by `get_task`, `get_all_tasks` and
`get_tasks_by_user`, with `enabled` and `do_only_once` defaulting to true
and `status` to pending; a stored execution document lacking `end_time`,
`output`, `error` or `user` is read with those fields defaulting to null. -/
theorem claim_C10 (i n sch : String) (ty : TaskType) (ca ua : Int) (uu : String)
    (j tid : String) (stt : Int) (sta : TaskStatus) :
    _doc_to_task (minTaskDoc i n sch ty ca ua uu) = some (minTask i n sch ty ca ua uu) ∧
    get_task Conn.ok { tasks := [minTaskDoc i n sch ty ca ua uu], executions := [] } i =
      some (minTask i n sch ty ca ua uu) ∧
    get_all_tasks Conn.ok { tasks := [minTaskDoc i n sch ty ca ua uu], executions := [] } =
      [minTask i n sch ty ca ua uu] ∧
    get_tasks_by_user Conn.ok { tasks := [minTaskDoc i n sch ty ca ua uu], executions := [] } uu =
      [minTask i n sch ty ca ua uu] ∧
    _doc_to_execution (minExecDoc j tid stt sta) = some (minExec j tid stt sta) ∧
    get_executions Conn.ok { tasks := [], executions := [minExecDoc j tid stt sta] } tid =
      [minExec j tid stt sta] := by
  have htask : _doc_to_task (minTaskDoc i n sch ty ca ua uu) = some (minTask i n sch ty ca ua uu) := by
    simp [_doc_to_task, minTaskDoc, minTask, getField, asStr, asTime, decodeOptStr,
      decodeOptTime, decodeBoolD, taskType_ofValue_value, taskStatus_ofValue_value]
  have hexec : _doc_to_execution (minExecDoc j tid stt sta) = some (minExec j tid stt sta) := by
    simp [_doc_to_execution, minExecDoc, minExec, getField, asStr, asTime, decodeOptStr,
      decodeOptTime, taskStatus_ofValue_value]
  refine ⟨htask, ?_, ?_, ?_, hexec, ?_⟩
  · simp only [minTaskDoc] at htask
    simp [get_task, findOne, List.find?, fieldEq, minTaskDoc, getField, htask]
  · simp [get_all_tasks, decodeList, htask]
  · simp only [minTaskDoc] at htask
    simp [get_tasks_by_user, findMany, List.filter, fieldEq, minTaskDoc, getField,
      decodeList, htask]
  · simp only [minExecDoc] at hexec
    simp [get_executions, findMany, List.filter, fieldEq, minExecDoc, getField,
      sortByStartDesc, mongoLimit, decodeList, hexec]


/-! ## Ordering and truncation lemmas for the execution queries -/

theorem bvalLe_refl (a : BVal) : bvalLe a a = true := by
  cases a <;> simp [bvalLe]

/-- The sorted output is pairwise descending on the `start_time` key. -/
theorem sortByStartDesc_pairwise (docs : List Doc) :
    (sortByStartDesc docs).Pairwise
      (fun d1 d2 => bvalLe (sTimeKey d2) (sTimeKey d1) = true) := by
  apply List.sorted_mergeSort
  · intro a b c hab hbc
    exact bvalLe_trans (sTimeKey c) (sTimeKey b) (sTimeKey a) hbc hab
  · intro a b
    exact bvalLe_total (sTimeKey b) (sTimeKey a)

theorem mem_sortByStartDesc {d : Doc} {docs : List Doc} :
    d ∈ sortByStartDesc docs ↔ d ∈ docs :=
  List.mem_mergeSort

theorem mongoLimit_length_le (n : Nat) (hn : 1 ≤ n) (l : List Doc) :
    (mongoLimit n l).length ≤ n := by
  unfold mongoLimit
  rw [if_neg (by omega)]
  exact List.length_take_le n l

theorem mongoLimit_subset {d : Doc} {n : Nat} {l : List Doc}
    (h : d ∈ mongoLimit n l) : d ∈ l := by
  unfold mongoLimit at h
  split at h
  · exact h
  · exact List.mem_of_mem_take h

theorem mongoLimit_pairwise {R : Doc → Doc → Prop} {n : Nat} {l : List Doc}
    (h : l.Pairwise R) : (mongoLimit n l).Pairwise R := by
  unfold mongoLimit
  split
  · exact h
  · exact h.sublist (List.take_sublist n l)

theorem decodeList_length (f : Doc → Option α) (l : List Doc) (r : List α)
    (h : decodeList f l = some r) : r.length = l.length := by
  induction l generalizing r with
  | nil =>
    simp [decodeList] at h
    subst h
    rfl
  | cons d rest ih =>
    unfold decodeList at h
    cases hf : f d with
    | none => rw [hf] at h; simp at h
    | some a =>
      rw [hf] at h
      cases hrest : decodeList f rest with
      | none => rw [hrest] at h; simp at h
      | some l' =>
        rw [hrest] at h
        simp at h
        subst h
        simp [ih l' hrest]

theorem decodeList_mem (f : Doc → Option α) (l : List Doc) (r : List α)
    (h : decodeList f l = some r) {a : α} (ha : a ∈ r) :
    ∃ d ∈ l, f d = some a := by
  induction l generalizing r with
  | nil =>
    simp [decodeList] at h
    subst h
    cases ha
  | cons d rest ih =>
    unfold decodeList at h
    cases hf : f d with
    | none => rw [hf] at h; simp at h
    | some b =>
      rw [hf] at h
      cases hrest : decodeList f rest with
      | none => rw [hrest] at h; simp at h
      | some l' =>
        rw [hrest] at h
        simp at h
        subst h
        rcases List.mem_cons.mp ha with hab | hal
        · exact ⟨d, List.mem_cons_self d rest, hab ▸ hf⟩
        · obtain ⟨d', hd', hfd'⟩ := ih l' hrest hal
          exact ⟨d', List.mem_cons_of_mem d hd', hfd'⟩

theorem decodeList_pairwise {R : Doc → Doc → Prop} {S : TaskExecution → TaskExecution → Prop}
    (f : Doc → Option TaskExecution) (l : List Doc) (r : List TaskExecution)
    (h : decodeList f l = some r) (hl : l.Pairwise R)
    (hRS : ∀ d1 d2 a1 a2, R d1 d2 → f d1 = some a1 → f d2 = some a2 → S a1 a2) :
    r.Pairwise S := by
  induction l generalizing r with
  | nil =>
    simp [decodeList] at h
    subst h
    exact List.Pairwise.nil
  | cons d rest ih =>
    unfold decodeList at h
    cases hf : f d with
    | none => rw [hf] at h; simp at h
    | some a =>
      rw [hf] at h
      cases hrest : decodeList f rest with
      | none => rw [hrest] at h; simp at h
      | some l' =>
        rw [hrest] at h
        simp at h
        subst h
        rcases List.pairwise_cons.mp hl with ⟨hRd, hRrest⟩
        refine List.pairwise_cons.mpr ⟨?_, ih l' hrest hRrest⟩
        intro b hb
        obtain ⟨d', hd', hfd'⟩ := decodeList_mem f rest l' hrest hb
        exact hRS d d' a b (hRd d' hd') hf hfd'


/-- Inversion of `_doc_to_execution`: a successful decode pins down the
document's `task_id`, `start_time` and `user` fields. -/
theorem doc_to_execution_fields (d : Doc) (e : TaskExecution)
    (h : _doc_to_execution d = some e) :
    getField d "task_id" = some (.str e.task_id) ∧
    getField d "start_time" = some (.time e.start_time) ∧
    decodeOptStr (getField d "user") = some e.user := by
  unfold _doc_to_execution at h
  split at h
  · next i tid st et sta out er us h1 h2 h3 h4 h5 h6 h7 h8 =>
    obtain ⟨v2, hv2, hs2⟩ := Option.bind_eq_some.mp h2
    obtain ⟨v3, hv3, hs3⟩ := Option.bind_eq_some.mp h3
    cases v2 <;> simp [asStr] at hs2
    cases v3 <;> simp [asTime] at hs3
    injection h with h
    subst h
    subst hs2
    subst hs3
    exact ⟨hv2, hv3, h8⟩
  · exact absurd h (by simp)

/-- Contract of the shared query pipeline of `get_executions` and
`get_executions_by_user` in the successful-decode case: at most `N`
results, every result decoded from a document matching the filter, and
results pairwise descending in `start_time`. -/
theorem execQuery_spec (col : List Doc) (k : String) (v : BVal) (N : Nat)
    (hN : 1 ≤ N) (r : List TaskExecution)
    (hdec : decodeList _doc_to_execution
      (mongoLimit N (sortByStartDesc (findMany col k v))) = some r) :
    r.length ≤ N ∧
    (∀ e ∈ r, ∃ d, fieldEq d k v = true ∧ _doc_to_execution d = some e) ∧
    r.Pairwise (fun e1 e2 => e2.start_time ≤ e1.start_time) := by
  refine ⟨?_, ?_, ?_⟩
  · rw [decodeList_length _ _ _ hdec]
    exact mongoLimit_length_le N hN _
  · intro e he
    obtain ⟨d, hd, hfd⟩ := decodeList_mem _ _ _ hdec he
    refine ⟨d, ?_, hfd⟩
    have hdm : d ∈ findMany col k v := mem_sortByStartDesc.mp (mongoLimit_subset hd)
    exact (List.mem_filter.mp hdm).2
  · apply decodeList_pairwise _ _ _ hdec (mongoLimit_pairwise (sortByStartDesc_pairwise _))
    intro d1 d2 e1 e2 hR h1 h2
    obtain ⟨-, hs1, -⟩ := doc_to_execution_fields d1 e1 h1
    obtain ⟨-, hs2, -⟩ := doc_to_execution_fields d2 e2 h2
    simp only [sTimeKey, hs1, hs2, Option.getD_some] at hR
    exact (bvalLe_time_iff _ _).mp hR

/-- A document matching the filter `{k: str s}` has that exact string in
the field. -/
theorem fieldEq_str (d : Doc) (k s : String) (h : fieldEq d k (.str s) = true) :
    getField d k = some (.str s) := by
  have h' := of_decide_eq_true h
  cases hg : getField d k with
  | none => rw [hg] at h'; simp at h'
  | some w => rw [hg] at h'; simpa [hg] using h'

/-- Claim C5 counterexample: with one stored execution for task "t1", a
call with `limit = 0` returns one record rather than at most zero —
pymongo treats a limit of 0 as "no limit". -/
theorem claim_C5_counterexample :
    (get_executions Conn.ok { tasks := [], executions := [execToDoc execW] } "t1" 0).length
      = 1 := by
  have h1 : findMany [execToDoc execW] "task_id" (.str "t1") = [execToDoc execW] := by
    simp [findMany, List.filter, fieldEq, execToDoc, execW, getField]
  simp [get_executions, h1, sortByStartDesc, mongoLimit, decodeList,
    doc_to_execution_execToDoc]

/-- Claim C5 (amended): for every positive limit `N`, `get_executions`
returns at most `N` executions, all with the queried `task_id`, ordered by
`start_time` descending; `get_executions_by_user` satisfies the same bound
and ordering scoped by user; the declared defaults are 10 and 50.  (For
`limit = 0` pymongo imposes no bound, see the counterexample.) -/
theorem claim_C5 (conn : Conn) (st : DBState) (tid uid : String) (N M : Nat)
    (hN : 1 ≤ N) (hM : 1 ≤ M) :
    ((get_executions conn st tid N).length ≤ N ∧
      (∀ e ∈ get_executions conn st tid N, e.task_id = tid) ∧
      (get_executions conn st tid N).Pairwise
        (fun e1 e2 => e2.start_time ≤ e1.start_time)) ∧
    ((get_executions_by_user conn st uid M).length ≤ M ∧
      (∀ e ∈ get_executions_by_user conn st uid M, e.user = some uid) ∧
      (get_executions_by_user conn st uid M).Pairwise
        (fun e1 e2 => e2.start_time ≤ e1.start_time)) ∧
    get_executions conn st tid = get_executions conn st tid 10 ∧
    get_executions_by_user conn st uid = get_executions_by_user conn st uid 50 := by
  refine ⟨?_, ?_, rfl, rfl⟩
  · cases conn with
    | failed cause => simp [get_executions]
    | ok =>
      cases hdec : decodeList _doc_to_execution
          (mongoLimit N (sortByStartDesc (findMany st.executions "task_id" (.str tid)))) with
      | none => simp [get_executions, hdec]
      | some r =>
        have hge : get_executions Conn.ok st tid N = r := by
          simp [get_executions, hdec]
        have hspec := execQuery_spec st.executions "task_id" (.str tid) N hN r hdec
        rw [hge]
        refine ⟨hspec.1, ?_, hspec.2.2⟩
        intro e he
        obtain ⟨d, hfe, hdc⟩ := hspec.2.1 e he
        obtain ⟨ht, -, -⟩ := doc_to_execution_fields d e hdc
        have := fieldEq_str d "task_id" tid hfe
        rw [ht] at this
        injection this with this
        injection this
  · cases conn with
    | failed cause => simp [get_executions_by_user]
    | ok =>
      cases hdec : decodeList _doc_to_execution
          (mongoLimit M (sortByStartDesc (findMany st.executions "user" (.str uid)))) with
      | none => simp [get_executions_by_user, hdec]
      | some r =>
        have hge : get_executions_by_user Conn.ok st uid M = r := by
          simp [get_executions_by_user, hdec]
        have hspec := execQuery_spec st.executions "user" (.str uid) M hM r hdec
        rw [hge]
        refine ⟨hspec.1, ?_, hspec.2.2⟩
        intro e he
        obtain ⟨d, hfe, hdc⟩ := hspec.2.1 e he
        obtain ⟨-, -, hu⟩ := doc_to_execution_fields d e hdc
        have := fieldEq_str d "user" uid hfe
        rw [this] at hu
        simp [decodeOptStr] at hu
        exact hu.symm

theorem claim_C5_witness :
    1 ≤ 10 ∧ 1 ≤ 50 ∧
    ((get_executions Conn.ok dbW2 "t1" 10).length ≤ 10 ∧
      (∀ e ∈ get_executions Conn.ok dbW2 "t1" 10, e.task_id = "t1") ∧
      (get_executions Conn.ok dbW2 "t1" 10).Pairwise
        (fun e1 e2 => e2.start_time ≤ e1.start_time)) :=
  ⟨by decide, by decide,
    (claim_C5 Conn.ok dbW2 "t1" "u1" 10 50 (by decide) (by decide)).1⟩

/-- Claim C8: the execution queries are deterministic — two calls with the
same arguments against the same stored data return equal lists — and the
model's tie-break for equal `start_time` keys is stable: a pair of
documents with tied keys keeps its stored (insertion) order through the
sort, so repeated calls return tied records in the same order. -/
theorem claim_C8 (conn : Conn) (st : DBState) (tid uid : String) (N M : Nat) :
    (get_executions conn st tid N = get_executions conn st tid N ∧
      get_executions_by_user conn st uid M = get_executions_by_user conn st uid M) ∧
    ∀ (docs : List Doc) (d1 d2 : Doc), sTimeKey d1 = sTimeKey d2 →
      [d1, d2].Sublist docs → [d1, d2].Sublist (sortByStartDesc docs) := by
  refine ⟨⟨rfl, rfl⟩, ?_⟩
  intro docs d1 d2 htie hsub
  unfold sortByStartDesc
  apply List.pair_sublist_mergeSort
  · intro a b c hab hbc
    exact bvalLe_trans (sTimeKey c) (sTimeKey b) (sTimeKey a) hbc hab
  · intro a b
    exact bvalLe_total (sTimeKey b) (sTimeKey a)
  · show bvalLe (sTimeKey d2) (sTimeKey d1) = true
    rw [htie]
    exact bvalLe_refl _
  · exact hsub

/-- A second execution of task "t1" whose `start_time` ties with `execW`. -/
def execW3 : TaskExecution :=
  { id := "e2", task_id := "t1", start_time := 5, end_time := none,
    status := .running, output := none, error := none, user := some "u1" }

theorem claim_C8_witness :
    sTimeKey (execToDoc execW) = sTimeKey (execToDoc execW3) ∧
    [execToDoc execW, execToDoc execW3].Sublist
      (sortByStartDesc [execToDoc execW, execToDoc execW3]) :=
  ⟨rfl, (claim_C8 Conn.ok dbEmpty "t1" "u1" 10 50).2
    [execToDoc execW, execToDoc execW3] (execToDoc execW) (execToDoc execW3)
    rfl (List.Sublist.refl _)⟩

end MCPScheduler
